import Mathlib

/-!
# Verification of the git-dumper engine against its design specification

This file gives a shallow embedding of `src/git_dumper.py` and settles the
frozen claims about it.  Conventions of the embedding:

* machine bytes become `Nat` values (0..255), file contents become `List Nat`;
* Python `str` values become `List Char` (Unicode code points, as in Python);
* the HTTP transport becomes a deterministic function from repository-relative
  paths to `Option Bytes` (`none` models a 404 or a caught transport error,
  which `download_file` treats identically);
* the output directory becomes an association list from paths to byte strings;
* Python exceptions that the source does not catch (IndexError from
  `split('ref: ')[1]`, UnicodeDecodeError from reading a file in text mode)
  become an `Except` error value;
* text-mode reads (`open(path, 'r')`) decode UTF-8 and apply universal
  newline translation, as CPython does with the default UTF-8 locale.

Definitions are translated from the source; the few definitions that follow
the specification's words instead (the object decoder, which the source does
not contain) are explicitly marked as such.
-/

set_option maxRecDepth 8192

namespace GitDumper

/-- A file content: a list of bytes, each in 0..255. -/
abbrev Bytes := List Nat

/-- A Python `str`: a list of Unicode code points. -/
abbrev Text := List Char

/-- A repository-relative or output-relative path. -/
abbrev Path := List Char

/-- Characters of a string literal. -/
def chars (s : String) : List Char := s.toList

/-- The bytes of an ASCII string. -/
def asciiBytes (s : String) : Bytes := s.toList.map Char.toNat

/-- Boolean list-prefix test (used for Python `startswith` and path tests). -/
def hasPfx {α : Type} [DecidableEq α] : List α → List α → Bool
  | [], _ => true
  | _ :: _, [] => false
  | a :: ps, b :: ss => if a = b then hasPfx ps ss else false

/-- Boolean contiguous-sublist test (Python `in` on `bytes`/`str`). -/
def hasSub {α : Type} [DecidableEq α] (p : List α) : List α → Bool
  | [] => p.isEmpty
  | b :: rest => hasPfx p (b :: rest) || hasSub p rest

/-- Code points Python `str.strip()` removes (Unicode whitespace). -/
def pySpaceCodes : List Nat :=
  [9, 10, 11, 12, 13, 28, 29, 30, 31, 32, 133, 160, 5760,
   8192, 8193, 8194, 8195, 8196, 8197, 8198, 8199, 8200, 8201, 8202,
   8232, 8233, 8239, 8287, 12288]

/-- Whether a character counts as whitespace for `str.strip()`. -/
def isPySpace (c : Char) : Bool := pySpaceCodes.contains c.toNat

/-- Python `str.strip()`: drop whitespace from both ends. -/
def pyStrip (t : Text) : Text :=
  ((t.dropWhile isPySpace).reverse.dropWhile isPySpace).reverse

/-- Fueled worker for `pySplit`; the fuel is always sufficient at the call
site, it only makes the recursion structural. -/
def pySplitGo (sep : Text) : Nat → Text → Text → List Text
  | 0, s, cur => [cur.reverse ++ s]
  | _ + 1, [], cur => [cur.reverse]
  | f + 1, c :: rest, cur =>
    if sep ≠ [] && hasPfx sep (c :: rest) then
      cur.reverse :: pySplitGo sep f (List.drop sep.length (c :: rest)) []
    else
      pySplitGo sep f rest (c :: cur)

/-- Python `str.split(sep)` for a nonempty separator: leftmost,
non-overlapping occurrences. -/
def pySplit (sep t : Text) : List Text := pySplitGo sep (t.length + 1) t []

/-- Whether a byte is a UTF-8 continuation byte. -/
def isCont (b : Nat) : Bool := 128 ≤ b && b ≤ 191

/-- Fueled UTF-8 decoder (CPython's strict `utf-8` codec): rejects invalid
lead bytes, overlong encodings, surrogates and out-of-range code points.
The fuel is always sufficient at the call site. -/
def utf8DecodeF : Nat → Bytes → Option (List Char)
  | 0, _ => none
  | _ + 1, [] => some []
  | f + 1, b :: rest =>
    if b ≤ 127 then
      (utf8DecodeF f rest).map (fun cs => Char.ofNat b :: cs)
    else if b ≤ 193 then none
    else if b ≤ 223 then
      match rest with
      | c1 :: rest2 =>
        if isCont c1 then
          (utf8DecodeF f rest2).map
            (fun cs => Char.ofNat ((b - 192) * 64 + (c1 - 128)) :: cs)
        else none
      | [] => none
    else if b ≤ 239 then
      match rest with
      | c1 :: c2 :: rest3 =>
        if (if b = 224 then 160 ≤ c1 && c1 ≤ 191
            else if b = 237 then 128 ≤ c1 && c1 ≤ 159
            else isCont c1) && isCont c2 then
          (utf8DecodeF f rest3).map
            (fun cs =>
              Char.ofNat (((b - 224) * 64 + (c1 - 128)) * 64 + (c2 - 128)) :: cs)
        else none
      | _ => none
    else if b ≤ 244 then
      match rest with
      | c1 :: c2 :: c3 :: rest4 =>
        if (if b = 240 then 144 ≤ c1 && c1 ≤ 191
            else if b = 244 then 128 ≤ c1 && c1 ≤ 143
            else isCont c1) && isCont c2 && isCont c3 then
          (utf8DecodeF f rest4).map
            (fun cs =>
              Char.ofNat ((((b - 240) * 64 + (c1 - 128)) * 64 + (c2 - 128)) * 64
                + (c3 - 128)) :: cs)
        else none
      | _ => none
    else none

/-- Strict UTF-8 decoding of a byte string. -/
def utf8Decode (bs : Bytes) : Option (List Char) := utf8DecodeF (bs.length + 1) bs

/-- Universal newline translation done by Python text-mode reads:
CRLF and lone CR both become LF. -/
def nlTranslate : List Char → List Char
  | [] => []
  | [c] => if c = Char.ofNat 13 then [Char.ofNat 10] else [c]
  | c :: c2 :: rest =>
    if c = Char.ofNat 13 then
      if c2 = Char.ofNat 10 then Char.ofNat 10 :: nlTranslate rest
      else Char.ofNat 10 :: nlTranslate (c2 :: rest)
    else c :: nlTranslate (c2 :: rest)

/-- Reading a saved file in Python text mode: UTF-8 decode, then newline
translation.  `none` models an uncaught `UnicodeDecodeError`. -/
def readTextFile (bs : Bytes) : Option Text := (utf8Decode bs).map nlTranslate

/-- One lowercase hex digit, as produced by Python `bytes.hex()`. -/
def hexDigitChar (n : Nat) : Char :=
  if n < 10 then Char.ofNat (48 + n) else Char.ofNat (87 + n)

/-- Python `bytes.hex()`: two lowercase hex digits per byte. -/
def bytesHex (bs : Bytes) : Text :=
  bs.foldr (fun b acc => hexDigitChar (b / 16 % 16) :: hexDigitChar (b % 16) :: acc) []

/-- Split a text at every occurrence of a character. -/
def splitOnChar (ch : Char) (t : Text) : List Text :=
  t.foldr
    (fun x acc =>
      if x = ch then [] :: acc
      else
        match acc with
        | hd :: tl => (x :: hd) :: tl
        | [] => [[x]])
    [[]]

/-- Rejoin path segments with `/` separators. -/
def joinSegs : List Path → Path
  | [] => []
  | [s] => s
  | s :: s2 :: rest => s ++ ('/' :: joinSegs (s2 :: rest))

/-! ## The output directory, modelled as an association list of files -/

/-- The output directory: a list of (path, content) regular files.
Directories are implicit: a directory exists exactly when some file lives
strictly below it.  The world outside the output root is modelled as
empty; safety provisos conservatively exclude paths that would leave it. -/
abbrev FS := List (Path × Bytes)

/-- Content of the file at a path, if present (first match). -/
def fsRead : FS → Path → Option Bytes
  | [], _ => none
  | (k, v) :: rest, p => if k = p then some v else fsRead rest p

/-- Replace the content of every entry at a given path. -/
def fsReplace (fs : FS) (p : Path) (v : Bytes) : FS :=
  fs.map (fun e => if e.1 = p then (p, v) else e)

/-- The raw store update: overwrite the file if it exists, else append it.
(`save_file` itself is `saveFile` below, which can fail.) -/
def fsWrite (fs : FS) (p : Path) (v : Bytes) : FS :=
  if (fsRead fs p).isSome then fsReplace fs p v else fs ++ [(p, v)]

/-- Whether path `k` lies strictly below directory `d`. -/
def isUnder (d k : Path) : Bool := hasPfx (d ++ ['/']) k

/-- Whether a directory exists at `d`: some saved file lies strictly
below it. -/
def isDirIn (fs : FS) (d : Path) : Bool := fs.any (fun e => isUnder d e.1)

/-- The transport: one GET by repository-relative path.  `none` models a
non-200 status or a caught request exception, which `download_file`
collapses into the same `None` result. -/
def Srv := Path → Option Bytes

/-- Python exceptions the source can raise but never catches: IndexError
from `split('ref: ')[1]`, UnicodeDecodeError from text-mode reads, and the
OSError family (IsADirectoryError / NotADirectoryError / FileExistsError)
from opening a directory, globbing a non-directory, or saving a file whose
path collides with the existing tree. -/
inductive PyErr
  | indexErr
  | unicodeErr
  | osErr
deriving DecidableEq

/-- `save_file`: `file_path.parent.mkdir(parents=True, exist_ok=True)`
followed by `open(file_path, 'wb')`.  It raises (NotADirectoryError or
FileExistsError from mkdir, IsADirectoryError from open) when an existing
file is a directory-ancestor of the path, or when the path itself exists as
a directory; otherwise it writes the bytes. -/
def saveFile (fs : FS) (p : Path) (c : Bytes) : Except PyErr FS :=
  if fs.any (fun e => isUnder e.1 p) then .error .osErr
  else if isDirIn fs p then .error .osErr
  else .ok (fsWrite fs p c)

/-- `git_dir / ref_path`, with pathlib's parsing rules: empty and `.`
segments are dropped, a leading `/` makes the target absolute and discards
`git_dir` (`..` segments are kept, as pathlib keeps them). -/
def pyJoinGit (p : Path) : Path :=
  let segs := (splitOnChar '/' p).filter (fun s => !s.isEmpty && s ≠ chars ".")
  if hasPfx ['/'] p then '/' :: joinSegs segs
  else joinSegs (chars ".git" :: segs)

/-- The source's `if path.exists(): open(path, 'r').read()` pattern:
a regular file is decoded as text, a missing path yields nothing, and a
directory makes `open` raise an uncaught IsADirectoryError. -/
def readSeedFile (fs : FS) (k : Path) : Except PyErr (Option Text) :=
  match fsRead fs k with
  | some b =>
    match readTextFile b with
    | none => .error .unicodeErr
    | some t => .ok (some t)
  | none => if isDirIn fs k then .error .osErr else .ok none

/-- `download_file` followed by the callers' `if content:` truthiness test:
a 200 response with empty body is falsy in Python and treated as absent. -/
def fetchOk (srv : Srv) (p : Path) : Option Bytes :=
  match srv p with
  | some c => if c.isEmpty then none else some c
  | none => none

/-- The output-directory path of a downloaded file: the source always saves
under an output-relative path beginning with a git metadata segment. -/
def gitCat (p : Path) : Path := chars ".git/" ++ p

/-- `dump_object`'s path convention:
`objects/<first 2 chars>/<remaining chars>` of the hex digest. -/
def shard (h : Text) : Path := chars "objects/" ++ h.take 2 ++ chars "/" ++ h.drop 2

/-- The `basic_files` list of `dump_basic_files`. -/
def basicFiles : List Path :=
  [chars "HEAD", chars "config", chars "description", chars "index",
   chars "packed-refs", chars "FETCH_HEAD", chars "ORIG_HEAD"]

/-- The `ref_paths` list of `dump_refs`. -/
def refPaths : List Path :=
  [chars "refs/heads/master", chars "refs/heads/main",
   chars "refs/remotes/origin/master", chars "refs/remotes/origin/main",
   chars "refs/remotes/origin/HEAD", chars "refs/stash"]

/-- The `log_paths` list of `dump_logs`. -/
def logPaths : List Path :=
  [chars "logs/HEAD", chars "logs/refs/heads/master", chars "logs/refs/heads/main",
   chars "logs/refs/remotes/origin/master", chars "logs/refs/remotes/origin/main"]

/-- All paths fetched by `dump_basic_files`, `dump_refs` and `dump_logs`,
in program order. -/
def phase1Paths : List Path := basicFiles ++ refPaths ++ logPaths

/-- The relative path of the HEAD file. -/
def headRel : Path := chars "HEAD"

/-- The saved location of HEAD. -/
def headKey : Path := gitCat (chars "HEAD")

/-- The saved location of the staging index. -/
def idxKey : Path := gitCat (chars "index")

/-- The saved refs directory marker used by the `rglob` over `.git/refs`. -/
def dotGitRefsT : Path := chars ".git/refs/"

/-- The `'ref:'` marker as text. -/
def refColonT : Text := chars "ref:"

/-- The `'ref: '` separator passed to `split`. -/
def refSpaceT : Text := chars "ref: "

/-- The `b'ref:'` marker probed for by `check_git_exposed`. -/
def refColonB : Bytes := asciiBytes "ref:"

/-- One download-and-save loop (`dump_basic_files` / `dump_refs` /
`dump_logs`, and the effect of repeated `dump_object` calls): for each path,
download; if the content is truthy, save it under `.git/<path>`.  Returns
the updated directory and the list of performed saves, in order. -/
def filesPhase (srv : Srv) (fs : FS) : List Path → Except PyErr (FS × List (Path × Bytes))
  | [] => .ok (fs, [])
  | p :: ps =>
    match fetchOk srv p with
    | some c =>
      match saveFile fs (gitCat p) c with
      | .error e => .error e
      | .ok fs2 =>
        match filesPhase srv fs2 ps with
        | .error e => .error e
        | .ok rest => .ok (rest.1, (gitCat p, c) :: rest.2)
    | none => filesPhase srv fs ps

/-- `dump_object`: download `objects/xx/yyy...` and save it verbatim
(the save can raise); returns the new state, the saves and the success
flag. -/
def dumpObject (srv : Srv) (fs : FS) (h : Text) :
    Except PyErr (FS × List (Path × Bytes) × Bool) :=
  match fetchOk srv (shard h) with
  | some c =>
    match saveFile fs (gitCat (shard h)) c with
    | .error e => .error e
    | .ok fs2 => .ok (fs2, [(gitCat (shard h), c)], true)
  | none => .ok (fs, [], false)

/-- The object-downloading loops of `dump_objects_from_refs` and
`dump_objects_from_index`: one `dump_object` per hash, in order; an
uncaught save exception aborts the loop. -/
def objectsLoop (srv : Srv) (fs : FS) : List Text → Except PyErr (FS × List (Path × Bytes))
  | [] => .ok (fs, [])
  | h :: hs =>
    match dumpObject srv fs h with
    | .error e => .error e
    | .ok r =>
      match objectsLoop srv r.1 hs with
      | .error e => .error e
      | .ok rest => .ok (rest.1, r.2.1 ++ rest.2)

/-- The HEAD part of `dump_objects_from_refs`'s seed collection: if the
saved HEAD exists it is read in text mode (opening a directory raises); if
its content starts with `'ref:'`, take `content.split('ref: ')[1]`
(IndexError when absent), join it onto the git dir with pathlib's rules,
and, if that target exists, read it the same way and add its stripped
content (with no length check). -/
def headSeed (fs : FS) : Except PyErr (List Text) :=
  match readSeedFile fs headKey with
  | .error e => .error e
  | .ok none => .ok []
  | .ok (some t) =>
    let c := pyStrip t
    if hasPfx refColonT c then
      match pySplit refSpaceT c with
      | _ :: p :: _ =>
        match readSeedFile fs (pyJoinGit p) with
        | .error e => .error e
        | .ok none => .ok []
        | .ok (some rt) => .ok [pyStrip rt]
      | _ => .error .indexErr
    else .ok []

/-- The `rglob` part of `dump_objects_from_refs`'s seed collection: every
saved file under `.git/refs/` is read in text mode; stripped contents of
length 40 are added. -/
def refsDirSeed : FS → Except PyErr (List Text)
  | [] => .ok []
  | (k, b) :: rest =>
    if hasPfx dotGitRefsT k then
      match readTextFile b with
      | none => .error .unicodeErr
      | some t =>
        match refsDirSeed rest with
        | .error e => .error e
        | .ok tl =>
          let c := pyStrip t
          .ok (if c.length = 40 then c :: tl else tl)
    else refsDirSeed rest

/-- The saved location of the refs directory itself. -/
def dotGitRefsKey : Path := chars ".git/refs"

/-- The full seed set of `dump_objects_from_refs`, deduplicated because the
source collects it in a Python `set` (iteration order of that set is
unspecified; this model fixes one order, which no claim depends on).
When `.git/refs` exists as a regular file, `refs_dir.exists()` is true and
`rglob` raises an uncaught NotADirectoryError. -/
def refsSeedHashes (fs : FS) : Except PyErr (List Text) :=
  match headSeed fs with
  | .error e => .error e
  | .ok hh =>
    if (fsRead fs dotGitRefsKey).isSome then .error .osErr
    else
      match refsDirSeed fs with
      | .error e => .error e
      | .ok rh => .ok ((hh ++ rh).dedup)

/-- `parse_index_file`'s scan of raw index bytes: every 20-byte window at
offsets `i` with `i < len - 20`, hex-encoded, kept if 40 characters long,
deduplicated by `list(set(...))`. -/
def idxCandidates (content : Bytes) : List Text :=
  (((List.range (content.length - 20)).map
      (fun i => bytesHex ((content.drop i).take 20))).filter
    (fun h => h.length == 40)).dedup

/-- `parse_index_file`: a missing index yields no candidates; an index
that exists but is a directory makes the binary `open` raise an uncaught
IsADirectoryError. -/
def idxCandidatesE (fs : FS) : Except PyErr (List Text) :=
  match fsRead fs idxKey with
  | some c => .ok (idxCandidates c)
  | none => if isDirIn fs idxKey then .error .osErr else .ok []

/-- `check_git_exposed`: HEAD must download, be truthy and contain `b'ref:'`. -/
def checkGitExposed (srv : Srv) : Bool :=
  match srv headRel with
  | some c => !c.isEmpty && hasSub refColonB c
  | none => false

/-- The observable outcome of one `dump` run. -/
structure DumpResult where
  fs : FS
  fetched : List Path
  saved : List (Path × Bytes)
  exposed : Bool

/-- `GitDumper.dump`, start to finish: probe HEAD; if not exposed, stop
with only that one fetch.  Otherwise download the basic/refs/logs files,
seed hashes from the saved HEAD and refs files, download those objects,
then scan the saved index and download those objects; an uncaught
exception at any step (seeding, file saving, index open) aborts the run.
`fetched` lists every repository-relative path a completed run requested,
in order. -/
def dump (srv : Srv) (fs0 : FS) : Except PyErr DumpResult :=
  if checkGitExposed srv then
    match filesPhase srv fs0 phase1Paths with
    | .error e => .error e
    | .ok r1 =>
      match refsSeedHashes r1.1 with
      | .error e => .error e
      | .ok hs =>
        match objectsLoop srv r1.1 hs with
        | .error e => .error e
        | .ok r2 =>
          match idxCandidatesE r2.1 with
          | .error e => .error e
          | .ok cands =>
            match objectsLoop srv r2.1 (cands.filter (fun h => h.length == 40)) with
            | .error e => .error e
            | .ok r3 =>
              .ok ⟨r3.1,
                headRel :: (phase1Paths ++ hs.map shard
                  ++ (cands.filter (fun h => h.length == 40)).map shard),
                r1.2 ++ r2.2 ++ r3.2, true⟩
  else .ok ⟨fs0, [headRel], [], false⟩

/-- Fetched-path trace of a run (empty for a crashed run). -/
def fetchedOf (e : Except PyErr DumpResult) : List Path :=
  match e with
  | .ok r => r.fetched
  | .error _ => []

/-- Final directory state of a run (empty for a crashed run). -/
def fsOf (e : Except PyErr DumpResult) : FS :=
  match e with
  | .ok r => r.fs
  | .error _ => []

/-- The uncaught exception of a run, if one was raised. -/
def errOf (e : Except PyErr DumpResult) : Option PyErr :=
  match e with
  | .ok _ => none
  | .error e => some e

/-- The save log of a run (empty for a crashed run). -/
def savedOf (e : Except PyErr DumpResult) : List (Path × Bytes) :=
  match e with
  | .ok r => r.saved
  | .error _ => []

/-- The exposure verdict of a run (false for a crashed run). -/
def exposedOf (e : Except PyErr DumpResult) : Bool :=
  match e with
  | .ok r => r.exposed
  | .error _ => false

/-- The externally observable trace of a run: the fetched paths and the
exposure verdict (the parts that do not depend on served object bytes). -/
def traceView (e : Except PyErr DumpResult) : Except PyErr (List Path × Bool) :=
  e.map (fun r => (r.fetched, r.exposed))

/-- The saves of a phase result (empty for a crashed phase). -/
def phaseSaves (e : Except PyErr (FS × List (Path × Bytes))) : List (Path × Bytes) :=
  match e with
  | .ok r => r.2
  | .error _ => []

/-- The state of a phase result (empty for a crashed phase). -/
def phaseFs (e : Except PyErr (FS × List (Path × Bytes))) : FS :=
  match e with
  | .ok r => r.1
  | .error _ => []

/-- The saves of one `dump_object` call (empty for a crashed call). -/
def objSavesOf (e : Except PyErr (FS × List (Path × Bytes) × Bool)) :
    List (Path × Bytes) :=
  match e with
  | .ok r => r.2.1
  | .error _ => []

/-- The directory state after the basic/refs/logs downloads of a run. -/
def phase1Of (srv : Srv) (fs0 : FS) : FS := phaseFs (filesPhase srv fs0 phase1Paths)

/-- The hashes the refs-derived phase of a run iterates over (empty when
seeding raises). -/
def refsSeedsOf (srv : Srv) (fs0 : FS) : List Text :=
  match refsSeedHashes (phase1Of srv fs0) with
  | .ok l => l
  | .error _ => []

/-- The directory state after the refs-derived object downloads of a run. -/
def runF2 (srv : Srv) (fs0 : FS) : FS :=
  phaseFs (objectsLoop srv (phase1Of srv fs0) (refsSeedsOf srv fs0))

/-- The candidate list the index scan of a run yields (empty when the
index open raises). -/
def idxCandsOf (srv : Srv) (fs0 : FS) : List Text :=
  match idxCandidatesE (runF2 srv fs0) with
  | .ok cands => cands
  | .error _ => []

/-- The hashes the index-derived phase of a run iterates over. -/
def idxSeedsOf (srv : Srv) (fs0 : FS) : List Text :=
  (idxCandsOf srv fs0).filter (fun h => h.length == 40)

/-- The final directory state of an exposed, non-crashing run. -/
def runF3 (srv : Srv) (fs0 : FS) : FS :=
  phaseFs (objectsLoop srv (runF2 srv fs0) (idxSeedsOf srv fs0))

/-- The save log of an exposed, non-crashing run. -/
def runSaved (srv : Srv) (fs0 : FS) : List (Path × Bytes) :=
  phaseSaves (filesPhase srv fs0 phase1Paths)
    ++ phaseSaves (objectsLoop srv (phase1Of srv fs0) (refsSeedsOf srv fs0))
    ++ phaseSaves (objectsLoop srv (runF2 srv fs0) (idxSeedsOf srv fs0))

/-- The fetch trace of an exposed, non-crashing run. -/
def runFetched (srv : Srv) (fs0 : FS) : List Path :=
  headRel :: (phase1Paths ++ (refsSeedsOf srv fs0).map shard
    ++ (idxSeedsOf srv fs0).map shard)

/-- Fueled worker for `pySubGit`; fuel is always sufficient at the call
site.  Mirrors `re.sub` with the source's pattern: at each position, the
leftmost occurrence of `.git` with an optional following `/` is deleted and
scanning resumes after it. -/
def pySubGitF : Nat → Text → Text
  | 0, s => s
  | _ + 1, [] => []
  | f + 1, c :: rest =>
    if hasPfx (chars ".git") (c :: rest) then
      match List.drop 4 (c :: rest) with
      | '/' :: rest2 => pySubGitF f rest2
      | other => pySubGitF f other
    else c :: pySubGitF f rest

/-- The source's `re.sub` deleting every (leftmost, non-overlapping)
occurrence of `.git` with an optional trailing slash, anywhere in the URL. -/
def pySubGit (s : Text) : Text := pySubGitF (s.length + 1) s

/-- Python `str.rstrip('/')`. -/
def pyRStripSlash (s : Text) : Text := (s.reverse.dropWhile (fun c => c = '/')).reverse

/-- `main`'s scheme defaulting: prepend `http://` when no scheme is given. -/
def httpFix (url : Text) : Text :=
  if hasPfx (chars "http://") url || hasPfx (chars "https://") url then url
  else chars "http://" ++ url

/-- The metadata base URL every request is joined onto: `main`'s scheme fix
and `.git`-deletion followed by `__init__`'s `rstrip('/') + '/.git/'`. -/
def mainBaseUrl (url : Text) : Text :=
  pyRStripSlash (pySubGit (httpFix url)) ++ chars "/.git/"

/-! ## The object decoder, modelled from the specification

The source never decodes fetched objects; the specification's section 4.2
describes a decoder.  The following definitions are the comparison point for
the graph-walk claims. -/

/-- Hex-digit test for ObjectId-shaped tokens. -/
def isHexChar (c : Char) : Bool :=
  decide ((48 ≤ c.toNat ∧ c.toNat ≤ 57) ∨ (97 ≤ c.toNat ∧ c.toNat ≤ 102))

/-- Modelled from the spec (section 4.1): `packed-refs` as a flat text table
mapping ref names to ObjectIds, parsed line by line with malformed lines
(comments, peel lines, anything but `<40-hex> <name>`) skipped. -/
def specPackedRefsParse (t : Text) : List (Text × Text) :=
  (splitOnChar (Char.ofNat 10) t).filterMap
    (fun line =>
      if line = [] ∨ hasPfx (chars "#") line ∨ hasPfx (chars "^") line then none
      else
        match pySplit (chars " ") line with
        | [idT, name] =>
          if idT.length = 40 ∧ idT.all isHexChar then some (name, idT) else none
        | _ => none)

/-! ## Concrete fixtures: servers and data used by witnesses and
counterexamples -/

/-- The hex of twenty `0xAB` bytes. -/
def cx3Hash : Text := chars "abababababababababababababababababababab"

/-- A server whose branch ref and staging index both yield `cx3Hash`. -/
def cx3Srv : Srv := fun p =>
  if p = headRel then some (asciiBytes "ref: refs/heads/master")
  else if p = chars "refs/heads/master" then
    some (asciiBytes "abababababababababababababababababababab")
  else if p = chars "index" then some (List.replicate 21 171)
  else none

/-- A 40-hex ObjectId (all `c`). -/
def cx7Hash : Text := chars "cccccccccccccccccccccccccccccccccccccccc"

/-- A well-formed one-line packed-refs table naming `cx7Hash`. -/
def cx7PackedStr : String :=
  "cccccccccccccccccccccccccccccccccccccccc refs/heads/master\n"

/-- A server whose only ObjectId lives in `packed-refs` (and whose object
store exposes it). -/
def cx7Srv : Srv := fun p =>
  if p = headRel then some (asciiBytes "ref: refs/heads/none")
  else if p = chars "packed-refs" then some (asciiBytes cx7PackedStr)
  else if p = shard cx7Hash then some (asciiBytes "x")
  else none

/-- A 40-hex ObjectId (all `e`). -/
def goodHash : Text := chars "eeeeeeeeeeeeeeeeeeeeeeeeeeeeeeeeeeeeeeee"

/-- A small well-behaved exposed repository: HEAD points at a branch, the
branch holds `goodHash`, and that object is served. -/
def goodSrv : Srv := fun p =>
  if p = headRel then some (asciiBytes "ref: refs/heads/master\n")
  else if p = chars "refs/heads/master" then
    some (asciiBytes "eeeeeeeeeeeeeeeeeeeeeeeeeeeeeeeeeeeeeeee\n")
  else if p = shard goodHash then some (asciiBytes "obj")
  else none


/-! ## Helper lemmas -/

theorem fetchOk_some {srv : Srv} {p : Path} {c : Bytes}
    (h : fetchOk srv p = some c) : srv p = some c := by
  unfold fetchOk at h
  cases hs : srv p with
  | none => rw [hs] at h; simp at h
  | some d =>
    rw [hs] at h
    by_cases hd : d.isEmpty
    · simp [hd] at h
    · simp [hd] at h
      rw [h]

/-! ### Download-phase lemmas -/

theorem filesPhase_cons (srv : Srv) (fs : FS) (p : Path) (ps : List Path) :
    filesPhase srv fs (p :: ps) =
      match fetchOk srv p with
      | some c =>
        match saveFile fs (gitCat p) c with
        | .error e => .error e
        | .ok fs2 =>
          match filesPhase srv fs2 ps with
          | .error e => .error e
          | .ok rest => .ok (rest.1, (gitCat p, c) :: rest.2)
      | none => filesPhase srv fs ps := rfl

theorem filesPhase_ok_snd {srv : Srv} :
    ∀ {ps : List Path} {fs : FS} {r : FS × List (Path × Bytes)},
      filesPhase srv fs ps = .ok r →
      r.2 = ps.filterMap (fun p => (fetchOk srv p).map (fun c => (gitCat p, c))) := by
  intro ps
  induction ps with
  | nil =>
    intro fs r h
    injection h with h2
    rw [← h2]
    rfl
  | cons q qs ih =>
    intro fs r h
    rw [filesPhase_cons] at h
    cases hf : fetchOk srv q with
    | none =>
      rw [hf] at h
      rw [List.filterMap_cons, hf]
      exact ih h
    | some c =>
      rw [hf] at h
      dsimp only at h
      cases hsv : saveFile fs (gitCat q) c with
      | error e => rw [hsv] at h; cases h
      | ok fs2 =>
        rw [hsv] at h
        dsimp only at h
        cases hrest : filesPhase srv fs2 qs with
        | error e => rw [hrest] at h; cases h
        | ok rest =>
          rw [hrest] at h
          injection h with h2
          rw [← h2]
          dsimp only
          rw [List.filterMap_cons, hf]
          simp only [Option.map_some']
          rw [ih hrest]

theorem objectsLoop_eq_filesPhase (srv : Srv) (hs : List Text) (fs : FS) :
    objectsLoop srv fs hs = filesPhase srv fs (hs.map shard) := by
  induction hs generalizing fs with
  | nil => rfl
  | cons h tl ih =>
    rw [List.map_cons, filesPhase_cons]
    unfold objectsLoop dumpObject
    cases hf : fetchOk srv (shard h) with
    | none =>
      dsimp only
      rw [ih fs]
      cases filesPhase srv fs (tl.map shard) with
      | error e => rfl
      | ok rest => rfl
    | some c =>
      dsimp only
      cases saveFile fs (gitCat (shard h)) c with
      | error e => rfl
      | ok fs2 =>
        dsimp only
        rw [ih fs2]
        cases filesPhase srv fs2 (tl.map shard) with
        | error e => rfl
        | ok rest => rfl

/-! ### Seed-collection invariance lemmas -/

theorem dump_ok_exposed {srv : Srv} {fs0 : FS} {r : DumpResult}
    (h : dump srv fs0 = .ok r) : r.exposed = checkGitExposed srv := by
  unfold dump at h
  by_cases hexp : checkGitExposed srv = true
  · rw [if_pos hexp] at h
    rw [hexp]
    cases h1 : filesPhase srv fs0 phase1Paths with
    | error e => rw [h1] at h; cases h
    | ok r1 =>
      rw [h1] at h
      dsimp only at h
      cases h2 : refsSeedHashes r1.1 with
      | error e => rw [h2] at h; cases h
      | ok hs =>
        rw [h2] at h
        dsimp only at h
        cases h3 : objectsLoop srv r1.1 hs with
        | error e => rw [h3] at h; cases h
        | ok r2 =>
          rw [h3] at h
          dsimp only at h
          cases h4 : idxCandidatesE r2.1 with
          | error e => rw [h4] at h; cases h
          | ok cands =>
            rw [h4] at h
            dsimp only at h
            cases h5 : objectsLoop srv r2.1 (cands.filter (fun x => x.length == 40)) with
            | error e => rw [h5] at h; cases h
            | ok r3 =>
              rw [h5] at h
              dsimp only at h
              injection h with h6
              rw [← h6]
  · rw [if_neg hexp] at h
    injection h with h6
    rw [← h6]
    simp only [Bool.not_eq_true] at hexp
    rw [hexp]

theorem dump_ok_true_inv {srv : Srv} {fs0 : FS} {r : DumpResult}
    (h : dump srv fs0 = .ok r) (he : r.exposed = true) :
    checkGitExposed srv = true ∧
    filesPhase srv fs0 phase1Paths =
      .ok (phase1Of srv fs0, phaseSaves (filesPhase srv fs0 phase1Paths)) ∧
    refsSeedHashes (phase1Of srv fs0) = .ok (refsSeedsOf srv fs0) ∧
    objectsLoop srv (phase1Of srv fs0) (refsSeedsOf srv fs0) =
      .ok (runF2 srv fs0,
        phaseSaves (objectsLoop srv (phase1Of srv fs0) (refsSeedsOf srv fs0))) ∧
    idxCandidatesE (runF2 srv fs0) = .ok (idxCandsOf srv fs0) ∧
    objectsLoop srv (runF2 srv fs0) (idxSeedsOf srv fs0) =
      .ok (runF3 srv fs0,
        phaseSaves (objectsLoop srv (runF2 srv fs0) (idxSeedsOf srv fs0))) ∧
    r = ⟨runF3 srv fs0, runFetched srv fs0, runSaved srv fs0, true⟩ := by
  have hexp : checkGitExposed srv = true := by
    rw [dump_ok_exposed h] at he
    exact he
  unfold dump at h
  rw [if_pos hexp] at h
  cases h1 : filesPhase srv fs0 phase1Paths with
  | error e => rw [h1] at h; cases h
  | ok r1 =>
    rw [h1] at h
    dsimp only at h
    have e1 : phase1Of srv fs0 = r1.1 := by
      simp only [phase1Of, h1, phaseFs]
    have s1 : phaseSaves (filesPhase srv fs0 phase1Paths) = r1.2 := by
      simp only [h1, phaseSaves]
    cases h2 : refsSeedHashes r1.1 with
    | error e => rw [h2] at h; cases h
    | ok hs =>
      rw [h2] at h
      dsimp only at h
      have e2 : refsSeedsOf srv fs0 = hs := by
        simp only [refsSeedsOf, e1, h2]
      cases h3 : objectsLoop srv r1.1 hs with
      | error e => rw [h3] at h; cases h
      | ok r2 =>
        rw [h3] at h
        dsimp only at h
        have e3 : runF2 srv fs0 = r2.1 := by
          simp only [runF2, e1, e2, h3, phaseFs]
        have s2 : phaseSaves (objectsLoop srv (phase1Of srv fs0) (refsSeedsOf srv fs0))
            = r2.2 := by
          simp only [e1, e2, h3, phaseSaves]
        cases h4 : idxCandidatesE r2.1 with
        | error e => rw [h4] at h; cases h
        | ok cands =>
          rw [h4] at h
          dsimp only at h
          have e4 : idxCandsOf srv fs0 = cands := by
            simp only [idxCandsOf, e3, h4]
          have e5 : idxSeedsOf srv fs0 = cands.filter (fun x => x.length == 40) := by
            simp only [idxSeedsOf, e4]
          cases h5 : objectsLoop srv r2.1 (cands.filter (fun x => x.length == 40)) with
          | error e => rw [h5] at h; cases h
          | ok r3 =>
            rw [h5] at h
            dsimp only at h
            injection h with h6
            have e6 : runF3 srv fs0 = r3.1 := by
              simp only [runF3, e3, e5, h5, phaseFs]
            have s3 : phaseSaves (objectsLoop srv (runF2 srv fs0) (idxSeedsOf srv fs0))
                = r3.2 := by
              simp only [e3, e5, h5, phaseSaves]
            refine ⟨hexp, ?_, ?_, ?_, ?_, ?_, ?_⟩
            · rw [e1]
              rfl
            · rw [e1, e2, h2]
            · rw [e3, s2, e1, e2, h3]
            · rw [e4, e3, h4]
            · rw [e6, s3, e3, e5, h5]
            · rw [← h6]
              unfold runFetched runSaved
              rw [s1, s2, s3, e2, e5, e6]

theorem refsSeedHashes_ok_nodup {fs : FS} {hs : List Text}
    (h : refsSeedHashes fs = .ok hs) : hs.Nodup := by
  unfold refsSeedHashes at h
  cases h1 : headSeed fs with
  | error e => rw [h1] at h; cases h
  | ok l1 =>
    rw [h1] at h
    dsimp only at h
    by_cases hk : (fsRead fs dotGitRefsKey).isSome = true
    · rw [if_pos hk] at h; cases h
    · rw [if_neg hk] at h
      cases h2 : refsDirSeed fs with
      | error e => rw [h2] at h; cases h
      | ok l2 =>
        rw [h2] at h
        dsimp only at h
        injection h with h3
        rw [← h3]
        exact List.nodup_dedup _

theorem idxCandidatesE_ok_nodup {fs : FS} {l : List Text}
    (h : idxCandidatesE fs = .ok l) : l.Nodup := by
  unfold idxCandidatesE at h
  cases hr : fsRead fs idxKey with
  | some c =>
    rw [hr] at h
    injection h with h2
    rw [← h2]
    exact List.nodup_dedup _
  | none =>
    rw [hr] at h
    by_cases hd : isDirIn fs idxKey = true
    · rw [if_pos hd] at h; cases h
    · rw [if_neg hd] at h
      injection h with h2
      rw [← h2]
      exact List.nodup_nil

theorem bytesHex_length (bs : Bytes) : (bytesHex bs).length = 2 * bs.length := by
  induction bs with
  | nil => rfl
  | cons b rest ih =>
    unfold bytesHex at ih ⊢
    rw [List.foldr_cons]
    simp only [List.length_cons]
    omega

theorem filterMap_save_shape (srv : Srv) (ps : List Path) :
    ∀ pc ∈ ps.filterMap (fun p => (fetchOk srv p).map (fun c => (gitCat p, c))),
      pc.1 = gitCat (pc.1.drop 5) ∧ srv (pc.1.drop 5) = some pc.2 := by
  intro pc hmem
  obtain ⟨p, hp, hpc⟩ := List.mem_filterMap.mp hmem
  cases hf : fetchOk srv p with
  | none => rw [hf] at hpc; cases hpc
  | some c =>
    rw [hf] at hpc
    rw [Option.map_some'] at hpc
    injection hpc with hpc2
    rw [← hpc2]
    have hdrop : (gitCat p).drop 5 = p := by
      show (chars ".git/" ++ p).drop 5 = p
      rw [show (5 : Nat) = (chars ".git/").length from rfl, List.drop_left]
    dsimp only
    rw [hdrop]
    exact ⟨rfl, fetchOk_some hf⟩

theorem objectsLoop_ok_snd {srv : Srv} {fs : FS} {hs : List Text}
    {r : FS × List (Path × Bytes)} (h : objectsLoop srv fs hs = .ok r) :
    r.2 = (hs.map shard).filterMap
      (fun p => (fetchOk srv p).map (fun c => (gitCat p, c))) := by
  rw [objectsLoop_eq_filesPhase] at h
  exact filesPhase_ok_snd h

/-- C3 (amended): within the refs-derived phase and within the
index-derived phase, seeded ids are deduplicated, so each phase fetches an
object at most once; but the phases share no visited set, and the full
trace is the probe, the fixed file list, and one object fetch per seed of
each phase — an id seeded by both phases is fetched once per phase.  (The
claim's "at most once across the whole run" is false: see the
counterexample.) -/
theorem claim3_theorem (srv : Srv) (fs0 : FS) (r : DumpResult)
    (hrun : dump srv fs0 = .ok r) (hexp2 : r.exposed = true) :
    (refsSeedsOf srv fs0).Nodup ∧ (idxSeedsOf srv fs0).Nodup ∧
      r.fetched = runFetched srv fs0 := by
  obtain ⟨-, st1, st2, st3, st4, st5, hrec⟩ := dump_ok_true_inv hrun hexp2
  refine ⟨refsSeedHashes_ok_nodup st2, ?_, ?_⟩
  · unfold idxSeedsOf
    exact (idxCandidatesE_ok_nodup st4).filter _
  · rw [hrec]

/-- C3 witness: the trace-shape theorem applied to a well-behaved server. -/
theorem claim3_witness :
    (refsSeedsOf goodSrv []).Nodup ∧ (idxSeedsOf goodSrv []).Nodup ∧
      fetchedOf (dump goodSrv []) = runFetched goodSrv [] := by
  cases hr : dump goodSrv [] with
  | error e =>
    have hno : errOf (dump goodSrv []) = none := by decide
    rw [hr] at hno
    simp [errOf] at hno
  | ok r =>
    have he : exposedOf (dump goodSrv []) = true := by decide
    rw [hr] at he
    have h3 := claim3_theorem goodSrv [] r hr he
    exact ⟨h3.1, h3.2.1, h3.2.2⟩

/-- C3 counterexample: an ObjectId seeded both by a branch ref and by the
staging index is fetched twice in one run. -/
theorem claim3_counterexample :
    (fetchedOf (dump cx3Srv [])).count (shard cx3Hash) = 2 := by
  decide

/-- C5: every pair in the save log of a run writes, under `.git/<rel>`,
exactly the bytes the server returned for `<rel>` — no re-encoding or
modification. -/
theorem claim5_theorem (srv : Srv) (fs0 : FS) (r : DumpResult)
    (hrun : dump srv fs0 = .ok r) :
    ∀ pc ∈ r.saved, pc.1 = gitCat (pc.1.drop 5) ∧ srv (pc.1.drop 5) = some pc.2 := by
  cases hre : r.exposed with
  | false =>
    have hexp : checkGitExposed srv = false := by
      rw [← dump_ok_exposed hrun, hre]
    unfold dump at hrun
    rw [if_neg (by simp [hexp])] at hrun
    injection hrun with h2
    intro pc hmem
    rw [← h2] at hmem
    simp at hmem
  | true =>
    obtain ⟨-, st1, st2, st3, st4, st5, hrec⟩ := dump_ok_true_inv hrun hre
    have hS1 : phaseSaves (filesPhase srv fs0 phase1Paths)
        = phase1Paths.filterMap
            (fun p => (fetchOk srv p).map (fun c => (gitCat p, c))) :=
      filesPhase_ok_snd st1
    have hS2 : phaseSaves (objectsLoop srv (phase1Of srv fs0) (refsSeedsOf srv fs0))
        = ((refsSeedsOf srv fs0).map shard).filterMap
            (fun p => (fetchOk srv p).map (fun c => (gitCat p, c))) :=
      objectsLoop_ok_snd st3
    have hS3 : phaseSaves (objectsLoop srv (runF2 srv fs0) (idxSeedsOf srv fs0))
        = ((idxSeedsOf srv fs0).map shard).filterMap
            (fun p => (fetchOk srv p).map (fun c => (gitCat p, c))) :=
      objectsLoop_ok_snd st5
    intro pc hmem
    rw [hrec] at hmem
    dsimp only at hmem
    unfold runSaved at hmem
    rw [hS1, hS2, hS3] at hmem
    rw [List.append_assoc, List.mem_append, List.mem_append] at hmem
    rcases hmem with hm | hm | hm
    · exact filterMap_save_shape srv phase1Paths pc hm
    · exact filterMap_save_shape srv _ pc hm
    · exact filterMap_save_shape srv _ pc hm

/-- C5 witness: the byte-preservation theorem applied to the first save of
the `goodSrv` run. -/
theorem claim5_witness :
    headKey = gitCat (headKey.drop 5) ∧
      goodSrv (headKey.drop 5) = some (asciiBytes "ref: refs/heads/master\n") := by
  cases hr : dump goodSrv [] with
  | error e =>
    have hno : errOf (dump goodSrv []) = none := by decide
    rw [hr] at hno
    simp [errOf] at hno
  | ok r =>
    have hmem : (headKey, asciiBytes "ref: refs/heads/master\n") ∈
        savedOf (dump goodSrv []) := by decide
    rw [hr] at hmem
    exact claim5_theorem goodSrv [] r hr _ hmem

/-- C6 (amended): the index scan produces the hex of the 20-byte window at
every offset `i` with `i + 20` strictly below the file length; the final
window (`i + 20` equal to the length) is skipped by the loop bound.  (The
claim's "every offset at which a full window fits" is false: see the
counterexample.) -/
theorem claim6_theorem (c : Bytes) (i : Nat) (h : i + 20 < c.length) :
    bytesHex ((c.drop i).take 20) ∈ idxCandidates c := by
  unfold idxCandidates
  rw [List.mem_dedup, List.mem_filter]
  constructor
  · exact List.mem_map.mpr ⟨i, List.mem_range.mpr (by omega), rfl⟩
  · have hlen : ((c.drop i).take 20).length = 20 := by
      rw [List.length_take, List.length_drop]
      omega
    rw [bytesHex_length, hlen]
    decide

/-- C6 witness: the amended scan theorem applied to a 21-byte file at
offset 0. -/
theorem claim6_witness :
    0 + 20 < (List.replicate 21 7).length ∧
      bytesHex ((List.replicate 21 7 |>.drop 0).take 20) ∈
        idxCandidates (List.replicate 21 7) :=
  ⟨by decide, claim6_theorem (List.replicate 21 7) 0 (by decide)⟩

/-- C6 counterexample: in a file of exactly 20 bytes a full 20-byte window
fits at offset 0, yet the scan returns no candidates at all. -/
theorem claim6_counterexample :
    0 + 20 ≤ (List.replicate 20 7).length ∧
      idxCandidates (List.replicate 20 7) = [] := by
  decide

/-- C7 (amended): `packed-refs` is downloaded and saved verbatim but never
parsed: every path the run fetches is the probe, one of the fixed metadata
paths, or the object path of an id seeded from HEAD/refs files or the
index — ids appearing only inside `packed-refs` are never fetched.  (The
claim's "every ObjectId so obtained is fetched" is false: see the
counterexample.) -/
theorem claim7_theorem (srv : Srv) (fs0 : FS) (r : DumpResult) (p : Path)
    (hrun : dump srv fs0 = .ok r) (hmem : p ∈ r.fetched) :
    p = headRel ∨ p ∈ phase1Paths ∨ p ∈ (refsSeedsOf srv fs0).map shard ∨
      p ∈ (idxSeedsOf srv fs0).map shard := by
  cases hre : r.exposed with
  | false =>
    have hexp : checkGitExposed srv = false := by
      rw [← dump_ok_exposed hrun, hre]
    unfold dump at hrun
    rw [if_neg (by simp [hexp])] at hrun
    injection hrun with h2
    rw [← h2] at hmem
    dsimp only at hmem
    rw [List.mem_singleton] at hmem
    exact Or.inl hmem
  | true =>
    obtain ⟨-, -, -, -, -, -, hrec⟩ := dump_ok_true_inv hrun hre
    rw [hrec] at hmem
    dsimp only at hmem
    unfold runFetched at hmem
    rw [List.mem_cons] at hmem
    rcases hmem with hm | hm
    · exact Or.inl hm
    · rw [List.append_assoc, List.mem_append, List.mem_append] at hm
      rcases hm with hm | hm | hm
      · exact Or.inr (Or.inl hm)
      · exact Or.inr (Or.inr (Or.inl hm))
      · exact Or.inr (Or.inr (Or.inr hm))

/-- C7 witness: the trace-characterization theorem applied to the probe
fetch of a well-behaved run. -/
theorem claim7_witness :
    headRel = headRel ∨ headRel ∈ phase1Paths ∨
      headRel ∈ (refsSeedsOf goodSrv []).map shard ∨
      headRel ∈ (idxSeedsOf goodSrv []).map shard := by
  cases hr : dump goodSrv [] with
  | error e =>
    have hno : errOf (dump goodSrv []) = none := by decide
    rw [hr] at hno
    simp [errOf] at hno
  | ok r =>
    have hmem : headRel ∈ fetchedOf (dump goodSrv []) := by decide
    rw [hr] at hmem
    exact claim7_theorem goodSrv [] r headRel hr hmem

/-- C7 counterexample: the saved `packed-refs` table names `cx7Hash` as a
well-formed ref line, the server exposes that object, yet its object path
is never fetched. -/
theorem claim7_counterexample :
    fsRead (fsOf (dump cx7Srv [])) (gitCat (chars "packed-refs"))
        = some (asciiBytes cx7PackedStr) ∧
      readTextFile (asciiBytes cx7PackedStr) = some cx7PackedStr.toList ∧
      specPackedRefsParse cx7PackedStr.toList
        = [(chars "refs/heads/master", cx7Hash)] ∧
      cx7Srv (shard cx7Hash) = some (asciiBytes "x") ∧
      shard cx7Hash ∉ fetchedOf (dump cx7Srv []) := by
  decide

/-- C8: for a 40-character id, both the requested path and the saved path
follow the standard sharding exactly: `objects/` plus the first two hex
characters, a slash, and the remaining 38 characters. -/
theorem claim8_theorem (srv : Srv) (fs0 : FS) (h : Text) (hlen : h.length = 40) :
    shard h = chars "objects/" ++ h.take 2 ++ chars "/" ++ h.drop 2 ∧
      (h.take 2).length = 2 ∧ (h.drop 2).length = 38 ∧
      h.take 2 ++ h.drop 2 = h ∧
      (objSavesOf (dumpObject srv fs0 h)).all
        (fun pc => pc.1 == gitCat (shard h)) = true := by
  refine ⟨rfl, ?_, ?_, List.take_append_drop 2 h, ?_⟩
  · rw [List.length_take]
    omega
  · rw [List.length_drop]
    omega
  · unfold dumpObject
    cases hf : fetchOk srv (shard h) with
    | none => rfl
    | some c =>
      dsimp only
      cases saveFile fs0 (gitCat (shard h)) c with
      | error e => rfl
      | ok fs2 => simp [objSavesOf]

/-- C8 witness: the sharding theorem applied to a concrete 40-hex id. -/
theorem claim8_witness :
    shard goodHash = chars "objects/" ++ goodHash.take 2 ++ chars "/"
        ++ goodHash.drop 2 ∧
      (goodHash.take 2).length = 2 ∧ (goodHash.drop 2).length = 38 ∧
      goodHash.take 2 ++ goodHash.drop 2 = goodHash ∧
      (objSavesOf (dumpObject goodSrv [] goodHash)).all
        (fun pc => pc.1 == gitCat (shard goodHash)) = true :=
  claim8_theorem goodSrv [] goodHash (by decide)

/-- C10: the CLI deletes every `.git` (with optional trailing slash)
occurrence anywhere in the URL before appending `/.git/`; a URL whose
`.git` occurrence is not a trailing repository suffix (a `.github` path
segment, a `.git` inside the host name, stacked occurrences) is rewritten
to a different host or path than the one supplied. -/
theorem claim10_theorem :
    pySubGit (chars "http://example.com/.github/proj")
        = chars "http://example.com/hub/proj" ∧
      mainBaseUrl (chars "http://example.com/.github/proj")
        = chars "http://example.com/hub/proj/.git/" ∧
      mainBaseUrl (chars "http://my.gitserver.com/repo")
        = chars "http://myserver.com/repo/.git/" ∧
      mainBaseUrl (chars "http://a.git.gitb.com/c.git/")
        = chars "http://ab.com/c/.git/" ∧
      mainBaseUrl (chars "example.com/repo.git")
        = chars "http://example.com/repo/.git/" := by
  decide
end GitDumper
